import Mathlib

/-!
Verification of the PIFP protocol contract
(`src/contracts/pifp_protocol/src/{lib.rs, storage.rs, types.rs}`).

The contract is shallowly embedded: Soroban instance/persistent storage
becomes explicit record fields, panics and `panic_with_error!` become an
`Except` error channel, machine integers (`u64`, `i128`) become `Nat`/`Int`
with explicit range checks where the Rust arithmetic would trap
(Soroban contracts are built with `overflow-checks = true`), and the
external authentication primitive (`require_auth`) is the host's concern
and is treated as always satisfied, following the architecture notes.
External calls (token transfers) and emitted events are recorded as a
list of `Effect`s; whether the external token transfer succeeds is a
parameter of `deposit`.

The `rbac` module is referenced by `lib.rs` (`pub mod rbac;`) but its file
is not part of the sources at hand, so the RBAC operations are modelled
from the specification's RoleRegistry section; each such definition is
marked `Modelled from the spec:` in its doc comment.
-/

namespace PIFP

/-- Addresses are opaque identifiers; we model them as naturals. -/
abbrev Address := Nat

/-- The contract's own address, `env.current_contract_address()`. -/
def contractAddress : Address := 0

/-- Roles, from the RBAC integration (`lib.rs` re-exports `rbac::Role`;
the variants are listed in the spec's RoleRegistry section). -/
inductive Role where
  | SuperAdmin
  | Admin
  | ProjectManager
  | Oracle
deriving DecidableEq, Repr

/-- Lifecycle status of a project, from `types.rs`. -/
inductive ProjectStatus where
  | Funding
  | Active
  | Completed
  | Expired
deriving DecidableEq, Repr

/-- Immutable project configuration, from `types.rs` (`ProjectConfig`).
`proof_hash` models `BytesN<32>`: byte-for-byte equality is list equality. -/
structure ProjectConfig where
  id : Nat
  creator : Address
  token : Address
  goal : Int
  proof_hash : List Nat
  deadline : Nat
deriving DecidableEq, Repr

/-- Mutable project state, from `types.rs` (`ProjectState`). -/
structure ProjectState where
  balance : Int
  status : ProjectStatus
deriving DecidableEq, Repr

/-- Full project view, from `types.rs` (`Project`). -/
structure Project where
  id : Nat
  creator : Address
  token : Address
  goal : Int
  balance : Int
  proof_hash : List Nat
  deadline : Nat
  status : ProjectStatus
deriving DecidableEq, Repr

/-- The typed contract errors, from the `Error` enum in `lib.rs`. -/
inductive ContractError where
  | ProjectNotFound
  | MilestoneNotFound
  | MilestoneAlreadyReleased
  | InsufficientBalance
  | InvalidMilestones
  | NotAuthorized
  | GoalMismatch
  | AlreadyInitialized
  | RoleNotFound
deriving DecidableEq, Repr

/-- An aborted operation: either a typed error (`panic_with_error!`) or an
untyped panic carrying its message (`expect(..)` / `panic!(..)`). -/
inductive Abort where
  | typed (e : ContractError)
  | panicMsg (msg : String)
deriving DecidableEq, Repr

/-- Observable external effects: token-contract calls and published events. -/
inductive Effect where
  | tokenTransfer (token sender recipient : Address) (amount : Int)
  | donationReceived (projectId : Nat) (donator : Address) (amount : Int)
  | verified (projectId : Nat)
deriving DecidableEq, Repr

/-- `u64` overflow bound for the project counter. -/
def U64_LIMIT : Nat := 2 ^ 64

/-- `i128` lower bound. -/
def I128_MIN : Int := -(2 ^ 127)

/-- `i128` upper bound. -/
def I128_MAX : Int := 2 ^ 127 - 1

/-- The contract's storage, combining the instance tier
(`ProjectCount`, `OracleKey`), the persistent tier (`ProjConfig(id)`,
`ProjState(id)`), and the RBAC module's role storage. `none` means the
entry is absent. TTL extension (`bump_instance` / `bump_persistent`)
does not change any stored value and is omitted. -/
structure ContractState where
  rbacInited : Bool
  roles : Address → Option Role
  projectCount : Option Nat
  oracleKey : Option Address
  configs : Nat → Option ProjectConfig
  states : Nat → Option ProjectState

/-- Freshly deployed contract: all storage empty. -/
def startState : ContractState :=
  { rbacInited := false
    roles := fun _ => none
    projectCount := none
    oracleKey := none
    configs := fun _ => none
    states := fun _ => none }

/-- Stored project counter with its `unwrap_or(0)` default. -/
def countOf (s : ContractState) : Nat := s.projectCount.getD 0

-- ── Storage helpers (storage.rs) ────────────────────────────────────

/-- `storage::get_and_increment_project_id`: returns the pre-increment
counter and stores `current + 1` (the `u64` addition traps on overflow). -/
def get_and_increment_project_id (s : ContractState) :
    Except Abort (Nat × ContractState) :=
  let current := countOf s
  if current + 1 < U64_LIMIT then
    Except.ok (current, { s with projectCount := some (current + 1) })
  else
    Except.error (Abort.panicMsg "attempt to add with overflow")

/-- `storage::set_oracle`: writes the `OracleKey` instance entry.
(Imported by `lib.rs` but called by no entry point.) -/
def storage_set_oracle (s : ContractState) (oracle : Address) : ContractState :=
  { s with oracleKey := some oracle }

/-- `storage::get_oracle`: reads `OracleKey`, panicking with the untyped
message `oracle not set` when the entry is absent. -/
def get_oracle (s : ContractState) : Except Abort Address :=
  match s.oracleKey with
  | some a => Except.ok a
  | none => Except.error (Abort.panicMsg "oracle not set")

/-- `storage::save_project`: splits a `Project` into its config and state
entries and writes both. -/
def save_project (s : ContractState) (p : Project) : ContractState :=
  { s with
    configs := fun i =>
      if i = p.id then
        some ⟨p.id, p.creator, p.token, p.goal, p.proof_hash, p.deadline⟩
      else s.configs i
    states := fun i =>
      if i = p.id then some ⟨p.balance, p.status⟩ else s.states i }

/-- `storage::load_project_config`: reads `ProjConfig(id)`, panicking with
the untyped message `project not found` when absent. -/
def load_project_config (s : ContractState) (id : Nat) :
    Except Abort ProjectConfig :=
  match s.configs id with
  | some c => Except.ok c
  | none => Except.error (Abort.panicMsg "project not found")

/-- `storage::load_project_state`: reads `ProjState(id)`, panicking with
the untyped message `project not found` when absent. -/
def load_project_state (s : ContractState) (id : Nat) :
    Except Abort ProjectState :=
  match s.states id with
  | some st => Except.ok st
  | none => Except.error (Abort.panicMsg "project not found")

/-- `storage::save_project_state`: rewrites only the `ProjState(id)` entry. -/
def save_project_state (s : ContractState) (id : Nat) (st : ProjectState) :
    ContractState :=
  { s with states := fun i => if i = id then some st else s.states i }

/-- `storage::load_project`: reconstructs the `Project` view from the two
entries. -/
def load_project (s : ContractState) (id : Nat) : Except Abort Project :=
  match load_project_config s id with
  | Except.error e => Except.error e
  | Except.ok c =>
    match load_project_state s id with
    | Except.error e => Except.error e
    | Except.ok st =>
      Except.ok ⟨c.id, c.creator, c.token, c.goal, st.balance, c.proof_hash,
        c.deadline, st.status⟩

-- ── RBAC (modelled from the spec; rbac.rs is not among the sources) ──

/-- Modelled from the spec: `has_role`-style check for the admin tier —
the caller holds `SuperAdmin` or `Admin`. Underlies the spec's
`require_admin_or_above` guard. -/
def isAdminOrAbove (s : ContractState) (a : Address) : Bool :=
  s.roles a == some Role.SuperAdmin || s.roles a == some Role.Admin

/-- Modelled from the spec: the `require_can_register` guard passes for
`SuperAdmin`, `Admin`, and `ProjectManager`. -/
def canRegister (s : ContractState) (a : Address) : Bool :=
  s.roles a == some Role.SuperAdmin || s.roles a == some Role.Admin ||
    s.roles a == some Role.ProjectManager

/-- Modelled from the spec: `rbac::init_super_admin` — callable exactly
once; later calls fail `AlreadyInitialized`; establishes the sole initial
`SuperAdmin`. -/
def init_super_admin (s : ContractState) (superAdmin : Address) :
    Except Abort ContractState :=
  if s.rbacInited then
    Except.error (Abort.typed ContractError.AlreadyInitialized)
  else
    Except.ok
      { s with
        rbacInited := true
        roles := fun a =>
          if a = superAdmin then some Role.SuperAdmin else s.roles a }

/-- Modelled from the spec: `rbac::grant_role` — the caller must hold
`SuperAdmin` or `Admin`, else `NotAuthorized`; granting `SuperAdmin` is
further restricted to callers already holding `SuperAdmin`; a grant
overwrites any role the target held. Role storage lives in the RBAC
module's own keys, separate from `OracleKey`. -/
def rbac_grant_role (s : ContractState) (caller target : Address)
    (role : Role) : Except Abort ContractState :=
  if role == Role.SuperAdmin then
    if s.roles caller == some Role.SuperAdmin then
      Except.ok
        { s with roles := fun a => if a = target then some role else s.roles a }
    else
      Except.error (Abort.typed ContractError.NotAuthorized)
  else
    if isAdminOrAbove s caller then
      Except.ok
        { s with roles := fun a => if a = target then some role else s.roles a }
    else
      Except.error (Abort.typed ContractError.NotAuthorized)

/-- Modelled from the spec: `rbac::revoke_role` — the caller must hold
`SuperAdmin` or `Admin`, else `NotAuthorized`; fails `RoleNotFound` when
the target holds no role; cannot strip the current `SuperAdmin` (that path
is exclusively `transfer_super_admin`). -/
def rbac_revoke_role (s : ContractState) (caller target : Address) :
    Except Abort ContractState :=
  if isAdminOrAbove s caller then
    match s.roles target with
    | none => Except.error (Abort.typed ContractError.RoleNotFound)
    | some r =>
      if r == Role.SuperAdmin then
        Except.error (Abort.typed ContractError.NotAuthorized)
      else
        Except.ok
          { s with roles := fun a => if a = target then none else s.roles a }
  else
    Except.error (Abort.typed ContractError.NotAuthorized)

/-- Modelled from the spec: `rbac::transfer_super_admin` — the current
holder must hold `SuperAdmin`, else `NotAuthorized`; the role moves
atomically to the new holder. -/
def rbac_transfer_super_admin (s : ContractState)
    (current newAdmin : Address) : Except Abort ContractState :=
  if s.roles current == some Role.SuperAdmin then
    Except.ok
      { s with
        roles := fun a =>
          if a = newAdmin then some Role.SuperAdmin
          else if a = current then none
          else s.roles a }
  else
    Except.error (Abort.typed ContractError.NotAuthorized)

/-- Modelled from the spec: `rbac::require_can_register` — fails
`NotAuthorized` unless the address holds `SuperAdmin`, `Admin`, or
`ProjectManager`; no side effect. -/
def require_can_register (s : ContractState) (a : Address) :
    Except Abort Unit :=
  if canRegister s a then Except.ok ()
  else Except.error (Abort.typed ContractError.NotAuthorized)

/-- Modelled from the spec: `rbac::require_oracle` — fails `NotAuthorized`
unless the address holds the `Oracle` role; no side effect. -/
def require_oracle (s : ContractState) (a : Address) : Except Abort Unit :=
  if s.roles a == some Role.Oracle then Except.ok ()
  else Except.error (Abort.typed ContractError.NotAuthorized)

-- ── Entry points (lib.rs) ────────────────────────────────────────────

/-- `PifpProtocol::init`: authenticates `super_admin` (external primitive)
and delegates to `rbac::init_super_admin`. -/
def init (s : ContractState) (superAdmin : Address) :
    Except Abort ContractState :=
  init_super_admin s superAdmin

/-- `PifpProtocol::grant_role`: delegates to `rbac::grant_role`. -/
def grant_role (s : ContractState) (caller target : Address) (role : Role) :
    Except Abort ContractState :=
  rbac_grant_role s caller target role

/-- `PifpProtocol::revoke_role`: delegates to `rbac::revoke_role`. -/
def revoke_role (s : ContractState) (caller target : Address) :
    Except Abort ContractState :=
  rbac_revoke_role s caller target

/-- `PifpProtocol::transfer_super_admin`: delegates to
`rbac::transfer_super_admin`. -/
def transfer_super_admin (s : ContractState) (current newAdmin : Address) :
    Except Abort ContractState :=
  rbac_transfer_super_admin s current newAdmin

/-- `PifpProtocol::set_oracle`: authenticates the caller, requires the
admin tier, then grants the `Oracle` role via `rbac::grant_role`.
It never touches the `OracleKey` storage entry. -/
def set_oracle (s : ContractState) (caller oracle : Address) :
    Except Abort ContractState :=
  if isAdminOrAbove s caller then
    rbac_grant_role s caller oracle Role.Oracle
  else
    Except.error (Abort.typed ContractError.NotAuthorized)

/-- `PifpProtocol::register_project`: authenticates the creator, requires
`require_can_register`, validates `goal > 0` and `deadline` strictly after
the ledger timestamp `now` (else `InvalidMilestones`), draws the next id,
and persists the new project with balance `0` and status `Funding`. -/
def register_project (s : ContractState) (creator tok : Address) (goal : Int)
    (proofHash : List Nat) (deadline now : Nat) :
    Except Abort (Project × ContractState) :=
  match require_can_register s creator with
  | Except.error e => Except.error e
  | Except.ok _ =>
    if goal ≤ 0 then
      Except.error (Abort.typed ContractError.InvalidMilestones)
    else if deadline ≤ now then
      Except.error (Abort.typed ContractError.InvalidMilestones)
    else
      match get_and_increment_project_id s with
      | Except.error e => Except.error e
      | Except.ok (id, s1) =>
        let project : Project :=
          ⟨id, creator, tok, goal, 0, proofHash, deadline,
            ProjectStatus.Funding⟩
        Except.ok (project, save_project s1 project)

/-- `PifpProtocol::get_project`: reconstructs the project view. -/
def get_project (s : ContractState) (id : Nat) : Except Abort Project :=
  load_project s id

/-- `PifpProtocol::deposit`: authenticates the donator, loads the config
(for the token address) and the state, calls the external token contract
to transfer `amount` from the donator to the contract (`transferOk` is
that external call's outcome), adds `amount` to the balance (the `i128`
addition traps on overflow), rewrites only the state entry, and publishes
the `donation_received` event. The second component records the external
calls and events issued, in order. -/
def deposit (s : ContractState) (projectId : Nat) (donator : Address)
    (amount : Int) (transferOk : Bool) :
    Except Abort ContractState × List Effect :=
  match s.configs projectId with
  | none => (Except.error (Abort.panicMsg "project not found"), [])
  | some config =>
    match s.states projectId with
    | none => (Except.error (Abort.panicMsg "project not found"), [])
    | some st =>
      let transfer :=
        Effect.tokenTransfer config.token donator contractAddress amount
      if transferOk then
        let newBalance := st.balance + amount
        if I128_MIN ≤ newBalance ∧ newBalance ≤ I128_MAX then
          (Except.ok (save_project_state s projectId ⟨newBalance, st.status⟩),
            [transfer, Effect.donationReceived projectId donator amount])
        else
          (Except.error (Abort.panicMsg "attempt to add with overflow"),
            [transfer])
      else
        (Except.error (Abort.panicMsg "token transfer failed"), [transfer])

/-- `PifpProtocol::verify_and_release`: reads the oracle address from the
`OracleKey` storage entry (panicking `oracle not set` when absent),
authenticates it, requires the `Oracle` role, loads config and state,
rejects terminal statuses (`Completed` → `MilestoneAlreadyReleased`,
`Expired` → `ProjectNotFound`), compares the submitted hash byte-for-byte
with the stored one (mismatch panics untyped), and on match sets the
status to `Completed`, rewrites only the state entry, and publishes the
`verified` event. The body performs no token transfer. -/
def verify_and_release (s : ContractState) (projectId : Nat)
    (submittedProofHash : List Nat) :
    Except Abort ContractState × List Effect :=
  match s.oracleKey with
  | none => (Except.error (Abort.panicMsg "oracle not set"), [])
  | some oracle =>
    if s.roles oracle == some Role.Oracle then
      match s.configs projectId with
      | none => (Except.error (Abort.panicMsg "project not found"), [])
      | some config =>
        match s.states projectId with
        | none => (Except.error (Abort.panicMsg "project not found"), [])
        | some st =>
          match st.status with
          | ProjectStatus.Completed =>
            (Except.error (Abort.typed ContractError.MilestoneAlreadyReleased),
              [])
          | ProjectStatus.Expired =>
            (Except.error (Abort.typed ContractError.ProjectNotFound), [])
          | _ =>
            if submittedProofHash = config.proof_hash then
              (Except.ok
                  (save_project_state s projectId
                    ⟨st.balance, ProjectStatus.Completed⟩),
                [Effect.verified projectId])
            else
              (Except.error
                  (Abort.panicMsg "proof verification failed: hash mismatch"),
                [])
    else
      (Except.error (Abort.typed ContractError.NotAuthorized), [])

-- ── Operation traces ─────────────────────────────────────────────────

/-- One invocation of a public entry point, with its arguments (including
the ledger timestamp seen by `register_project` and the outcome of the
external token transfer performed by `deposit`). -/
inductive Op where
  | opInit (superAdmin : Address)
  | opGrantRole (caller target : Address) (role : Role)
  | opRevokeRole (caller target : Address)
  | opTransferSuperAdmin (current newAdmin : Address)
  | opSetOracle (caller oracle : Address)
  | opRegisterProject (creator tok : Address) (goal : Int)
      (proofHash : List Nat) (deadline now : Nat)
  | opDeposit (projectId : Nat) (donator : Address) (amount : Int)
      (transferOk : Bool)
  | opVerifyAndRelease (projectId : Nat) (submitted : List Nat)

/-- Execute one entry point, discarding return values and effects. -/
def execOp (s : ContractState) : Op → Except Abort ContractState
  | Op.opInit a => init s a
  | Op.opGrantRole c t r => grant_role s c t r
  | Op.opRevokeRole c t => revoke_role s c t
  | Op.opTransferSuperAdmin c n => transfer_super_admin s c n
  | Op.opSetOracle c o => set_oracle s c o
  | Op.opRegisterProject c tok g h d now =>
    (register_project s c tok g h d now).map Prod.snd
  | Op.opDeposit pid don amt tOk => (deposit s pid don amt tOk).1
  | Op.opVerifyAndRelease pid h => (verify_and_release s pid h).1

/-- The state kept after a possibly-aborting invocation: the host rolls
back every write of an aborted invocation. -/
def orOld (s : ContractState) : Except Abort ContractState → ContractState
  | Except.ok s' => s'
  | Except.error _ => s

/-- One invocation, with abort-rollback. -/
def step (s : ContractState) (op : Op) : ContractState := orOld s (execOp s op)

/-- Run a sequence of invocations. -/
def runOps (s : ContractState) (ops : List Op) : ContractState :=
  ops.foldl step s

/-- States reachable from deployment through the public entry points. -/
def Reachable (s : ContractState) : Prop :=
  ∃ ops : List Op, runOps startState ops = s

/-- The ids returned by the successful `register_project` calls of a
trace, in call order. -/
def registeredIds : ContractState → List Op → List Nat
  | _, [] => []
  | s, Op.opRegisterProject c tok g h d now :: rest =>
    match register_project s c tok g h d now with
    | Except.ok (p, s') => p.id :: registeredIds s' rest
    | Except.error _ => registeredIds s rest
  | s, op :: rest => registeredIds (step s op) rest

/-- The status transitions the specification allows. -/
def allowedTransition : ProjectStatus → ProjectStatus → Bool
  | ProjectStatus.Funding, ProjectStatus.Active => true
  | ProjectStatus.Funding, ProjectStatus.Completed => true
  | ProjectStatus.Funding, ProjectStatus.Expired => true
  | ProjectStatus.Active, ProjectStatus.Completed => true
  | ProjectStatus.Active, ProjectStatus.Expired => true
  | _, _ => false

-- ── Concrete scenario states (used in witnesses and counterexamples) ─

set_option maxRecDepth 100000

/-- A concrete 32-byte proof hash used in the concrete scenarios. -/
def demoHash : List Nat := List.replicate 32 0

/-- A concrete trace: bootstrap, designate an oracle, register a project
with `demoHash` and a deadline of `10` (current time `0`), deposit `40`. -/
def c1Ops : List Op :=
  [Op.opInit 1, Op.opSetOracle 1 9, Op.opGrantRole 1 2 Role.ProjectManager,
   Op.opRegisterProject 2 7 100 demoHash 10 0,
   Op.opDeposit 0 5 40 true]

/-- The state reached by `c1Ops`. -/
def c1S : ContractState := runOps startState c1Ops

/-- `c1S` with the `OracleKey` entry force-written (a state no entry-point
sequence produces), to exhibit the success path of `verify_and_release`. -/
def c1Sora : ContractState := { c1S with oracleKey := some 9 }

/-- The result of a concrete successful registration on top of `c1S`. -/
def c5Pair : Project × ContractState :=
  match register_project c1S 2 7 55 demoHash 99 0 with
  | Except.ok pr => pr
  | Except.error _ => (⟨0, 0, 0, 0, 0, [], 0, ProjectStatus.Funding⟩, c1S)

/-- The state after a concrete successful deposit of `10` on `c1S`. -/
def c7S : ContractState :=
  match (deposit c1S 0 5 10 true).1 with
  | Except.ok s' => s'
  | Except.error _ => c1S

/-- A handcrafted state whose single project is already `Completed`, to
exhibit that `deposit` succeeds regardless of status. -/
def c9S : ContractState :=
  { startState with
    configs := fun i =>
      if i = 0 then some ⟨0, 2, 7, 100, demoHash, 10⟩ else none
    states := fun i =>
      if i = 0 then some ⟨5, ProjectStatus.Completed⟩ else none }

/-- The state after a concrete successful `SuperAdmin` grant on `c1S`. -/
def c10S : ContractState :=
  match grant_role c1S 1 3 Role.SuperAdmin with
  | Except.ok s' => s'
  | Except.error _ => c1S

-- ── Frame lemmas: role-management operations touch only role storage ─

/-- The operation changed at most the RBAC fields. -/
def RolesOnly (s s' : ContractState) : Prop :=
  s'.configs = s.configs ∧ s'.states = s.states ∧
    s'.projectCount = s.projectCount ∧ s'.oracleKey = s.oracleKey

theorem rolesOnly_refl (s : ContractState) : RolesOnly s s :=
  ⟨rfl, rfl, rfl, rfl⟩

theorem init_super_admin_rolesOnly (s : ContractState) (a : Address)
    (s' : ContractState) (h : init_super_admin s a = Except.ok s') :
    RolesOnly s s' := by
  unfold init_super_admin at h
  split at h
  · cases h
  · cases h
    exact ⟨rfl, rfl, rfl, rfl⟩

theorem rbac_grant_role_rolesOnly (s : ContractState) (c t : Address)
    (r : Role) (s' : ContractState)
    (h : rbac_grant_role s c t r = Except.ok s') : RolesOnly s s' := by
  unfold rbac_grant_role at h
  split at h <;> split at h <;> cases h <;> exact ⟨rfl, rfl, rfl, rfl⟩

theorem rbac_revoke_role_rolesOnly (s : ContractState) (c t : Address)
    (s' : ContractState) (h : rbac_revoke_role s c t = Except.ok s') :
    RolesOnly s s' := by
  unfold rbac_revoke_role at h
  split at h
  · split at h
    · cases h
    · split at h
      · cases h
      · cases h; exact ⟨rfl, rfl, rfl, rfl⟩
  · cases h

theorem rbac_transfer_super_admin_rolesOnly (s : ContractState)
    (c n : Address) (s' : ContractState)
    (h : rbac_transfer_super_admin s c n = Except.ok s') : RolesOnly s s' := by
  unfold rbac_transfer_super_admin at h
  split at h
  · cases h; exact ⟨rfl, rfl, rfl, rfl⟩
  · cases h

theorem set_oracle_rolesOnly (s : ContractState) (c o : Address)
    (s' : ContractState) (h : set_oracle s c o = Except.ok s') :
    RolesOnly s s' := by
  unfold set_oracle at h
  split at h
  · exact rbac_grant_role_rolesOnly s c o Role.Oracle s' h
  · cases h

-- ── Shape lemmas: what a successful mutating operation did ──────────

theorem register_project_ok (s : ContractState) (c tok : Address) (g : Int)
    (h : List Nat) (d now : Nat) (p : Project) (s' : ContractState)
    (hok : register_project s c tok g h d now = Except.ok (p, s')) :
    canRegister s c = true ∧ 0 < g ∧ now < d ∧
      p = ⟨countOf s, c, tok, g, 0, h, d, ProjectStatus.Funding⟩ ∧
      s' = save_project { s with projectCount := some (countOf s + 1) } p := by
  have hcr : canRegister s c = true := by
    by_contra hne
    unfold register_project require_can_register at hok
    rw [if_neg hne] at hok
    cases hok
  refine ⟨hcr, ?_⟩
  unfold register_project require_can_register get_and_increment_project_id at hok
  rw [if_pos hcr] at hok
  by_cases hg : g ≤ 0
  · rw [if_pos hg] at hok; cases hok
  rw [if_neg hg] at hok
  by_cases hd : d ≤ now
  · rw [if_pos hd] at hok; cases hok
  rw [if_neg hd] at hok
  by_cases hlt : countOf s + 1 < U64_LIMIT
  · rw [if_pos hlt] at hok
    cases hok
    exact ⟨by omega, by omega, rfl, rfl⟩
  · rw [if_neg hlt] at hok
    cases hok

theorem deposit_ok (s : ContractState) (pid : Nat) (don : Address) (a : Int)
    (tOk : Bool) (s' : ContractState)
    (hok : (deposit s pid don a tOk).1 = Except.ok s') :
    ∃ config st, s.configs pid = some config ∧ s.states pid = some st ∧
      tOk = true ∧ I128_MIN ≤ st.balance + a ∧ st.balance + a ≤ I128_MAX ∧
      s' = save_project_state s pid ⟨st.balance + a, st.status⟩ := by
  unfold deposit at hok
  split at hok
  · cases hok
  · split at hok
    · cases hok
    · split at hok
      · simp only [] at hok
        split at hok
        · cases hok
          rename_i xc config heqc xst st heqst htOk hrange
          exact ⟨config, st, heqc, heqst, htOk, hrange.1, hrange.2, rfl⟩
        · cases hok
      · cases hok

theorem verify_and_release_ok (s : ContractState) (pid : Nat) (h : List Nat)
    (s' : ContractState)
    (hok : (verify_and_release s pid h).1 = Except.ok s') :
    ∃ oracle config st, s.oracleKey = some oracle ∧
      s.roles oracle = some Role.Oracle ∧
      s.configs pid = some config ∧ s.states pid = some st ∧
      (st.status = ProjectStatus.Funding ∨ st.status = ProjectStatus.Active) ∧
      h = config.proof_hash ∧
      s' = save_project_state s pid ⟨st.balance, ProjectStatus.Completed⟩ := by
  unfold verify_and_release at hok
  split at hok
  · cases hok
  · split at hok
    · split at hok
      · cases hok
      · split at hok
        · cases hok
        · split at hok
          · cases hok
          · cases hok
          · split at hok
            · cases hok
              rename_i x1 orc heqokey hroleb x2 cfg heqcfg x3 stv heqstv xs
                hnc hne hhash
              refine ⟨orc, cfg, stv, heqokey, by simpa using hroleb, heqcfg,
                heqstv, ?_, hhash, rfl⟩
              cases hs : stv.status
              · exact Or.inl rfl
              · exact Or.inr rfl
              · exact absurd hs hnc
              · exact absurd hs hne
            · cases hok
    · cases hok


/-- Every stored project entry lies strictly below the id counter. -/
def IdsBounded (s : ContractState) : Prop :=
  ∀ i : Nat, ((s.configs i).isSome = true ∨ (s.states i).isSome = true) →
    i < countOf s

/-- The reachability invariant: the `OracleKey` instance entry is absent
and project entries sit below the counter. -/
def GoodState (s : ContractState) : Prop :=
  s.oracleKey = none ∧ IdsBounded s

theorem step_eq (s : ContractState) (op : Op) :
    step s op = s ∨ ∃ s', execOp s op = Except.ok s' ∧ step s op = s' := by
  cases hex : execOp s op with
  | error e => exact Or.inl (by simp [step, orOld, hex])
  | ok s' => exact Or.inr ⟨s', rfl, by simp [step, orOld, hex]⟩

theorem goodState_of_rolesOnly (s s' : ContractState) (hro : RolesOnly s s')
    (hg : GoodState s) : GoodState s' := by
  obtain ⟨hc, hst, hpc, hok⟩ := hro
  refine ⟨hok.trans hg.1, ?_⟩
  intro i hi
  unfold countOf
  rw [hpc]
  rw [hc, hst] at hi
  exact hg.2 i hi

theorem goodState_start : GoodState startState := by
  refine ⟨rfl, ?_⟩
  intro i hi
  simp [startState] at hi

theorem goodState_step (s : ContractState) (op : Op) (hg : GoodState s) :
    GoodState (step s op) := by
  rcases step_eq s op with hsame | ⟨s', hok, hstep⟩
  · rw [hsame]; exact hg
  · rw [hstep]
    cases op with
    | opInit a =>
      exact goodState_of_rolesOnly s s' (init_super_admin_rolesOnly s a s' hok) hg
    | opGrantRole c t r =>
      exact goodState_of_rolesOnly s s' (rbac_grant_role_rolesOnly s c t r s' hok) hg
    | opRevokeRole c t =>
      exact goodState_of_rolesOnly s s' (rbac_revoke_role_rolesOnly s c t s' hok) hg
    | opTransferSuperAdmin c n =>
      exact goodState_of_rolesOnly s s'
        (rbac_transfer_super_admin_rolesOnly s c n s' hok) hg
    | opSetOracle c o =>
      exact goodState_of_rolesOnly s s' (set_oracle_rolesOnly s c o s' hok) hg
    | opRegisterProject c tok g h d now =>
      cases hreg : register_project s c tok g h d now with
      | error e => rw [execOp, hreg] at hok; cases hok
      | ok pr =>
        rw [execOp, hreg] at hok
        cases hok
        obtain ⟨_, _, _, hp, hs'⟩ :=
          register_project_ok s c tok g h d now pr.1 pr.2 (by rw [hreg])
        rw [hs']
        constructor
        · simpa [save_project] using hg.1
        · intro i hi
          simp only [save_project, countOf] at hi ⊢
          simp only [Option.getD_some]
          have hrw : s.projectCount.getD 0 = countOf s := rfl
          by_cases hip : i = pr.1.id
          · have : pr.1.id = countOf s := by rw [hp]
            omega
          · rw [if_neg hip, if_neg hip] at hi
            have := hg.2 i hi
            omega
    | opDeposit pid don amt tOk =>
      obtain ⟨config, st, hc, hst, _, _, _, hs'⟩ :=
        deposit_ok s pid don amt tOk s' hok
      rw [hs']
      have hpid : pid < countOf s := hg.2 pid (Or.inr (by rw [hst]; rfl))
      constructor
      · simpa [save_project_state] using hg.1
      · intro i hi
        simp only [save_project_state, countOf] at hi ⊢
        have hrw : s.projectCount.getD 0 = countOf s := rfl
        by_cases hip : i = pid
        · omega
        · rw [if_neg hip] at hi
          have := hg.2 i hi
          omega
    | opVerifyAndRelease pid hsub =>
      obtain ⟨oracle, _, _, hkey, _⟩ := verify_and_release_ok s pid hsub s' hok
      rw [hg.1] at hkey
      cases hkey

theorem runOps_good (ops : List Op) :
    ∀ s : ContractState, GoodState s → GoodState (runOps s ops) := by
  induction ops with
  | nil => intro s hg; exact hg
  | cons op rest ih =>
    intro s hg
    exact ih (step s op) (goodState_step s op hg)

theorem reachable_good (s : ContractState) (h : Reachable s) : GoodState s := by
  obtain ⟨ops, hops⟩ := h
  rw [← hops]
  exact runOps_good ops startState goodState_start


theorem countOf_step_eq (s : ContractState) (op : Op)
    (hro : ∀ s', execOp s op = Except.ok s' → s'.projectCount = s.projectCount) :
    countOf (step s op) = countOf s := by
  rcases step_eq s op with hsame | ⟨s', hok, hstep⟩
  · rw [hsame]
  · rw [hstep]; unfold countOf; rw [hro s' hok]

theorem registeredIds_range' (ops : List Op) :
    ∀ s : ContractState,
      registeredIds s ops
        = List.range' (countOf s) (registeredIds s ops).length := by
  induction ops with
  | nil => intro s; rfl
  | cons op rest ih =>
    intro s
    cases op with
    | opRegisterProject c tok g h d now =>
      cases hreg : register_project s c tok g h d now with
      | error e =>
        simp only [registeredIds, hreg]
        exact ih s
      | ok pr =>
        simp only [registeredIds, hreg]
        obtain ⟨_, _, _, hp, hs'⟩ :=
          register_project_ok s c tok g h d now pr.1 pr.2 (by rw [hreg])
        have hid : pr.1.id = countOf s := by rw [hp]
        have hcount : countOf pr.2 = countOf s + 1 := by
          rw [hs']; simp [save_project, countOf]
        have hrest := ih pr.2
        rw [hcount] at hrest
        rw [hrest, hid]
        rw [List.length_cons, List.range'_succ]
        congr 1
        rw [← hrest]
        rw [hrest, List.length_range']
    | opInit a =>
      simp only [registeredIds]
      rw [← countOf_step_eq s (Op.opInit a)
        (fun s' hok => (init_super_admin_rolesOnly s a s' hok).2.2.1)]
      exact ih _
    | opGrantRole ca t r =>
      simp only [registeredIds]
      rw [← countOf_step_eq s (Op.opGrantRole ca t r)
        (fun s' hok => (rbac_grant_role_rolesOnly s ca t r s' hok).2.2.1)]
      exact ih _
    | opRevokeRole ca t =>
      simp only [registeredIds]
      rw [← countOf_step_eq s (Op.opRevokeRole ca t)
        (fun s' hok => (rbac_revoke_role_rolesOnly s ca t s' hok).2.2.1)]
      exact ih _
    | opTransferSuperAdmin ca n =>
      simp only [registeredIds]
      rw [← countOf_step_eq s (Op.opTransferSuperAdmin ca n)
        (fun s' hok => (rbac_transfer_super_admin_rolesOnly s ca n s' hok).2.2.1)]
      exact ih _
    | opSetOracle ca o =>
      simp only [registeredIds]
      rw [← countOf_step_eq s (Op.opSetOracle ca o)
        (fun s' hok => (set_oracle_rolesOnly s ca o s' hok).2.2.1)]
      exact ih _
    | opDeposit pid don amt tOk =>
      simp only [registeredIds]
      rw [← countOf_step_eq s (Op.opDeposit pid don amt tOk) (fun s' hok => by
        obtain ⟨_, _, _, _, _, _, _, hs'⟩ := deposit_ok s pid don amt tOk s' hok
        rw [hs']; rfl)]
      exact ih _
    | opVerifyAndRelease pid hsub =>
      simp only [registeredIds]
      rw [← countOf_step_eq s (Op.opVerifyAndRelease pid hsub) (fun s' hok => by
        obtain ⟨_, _, _, _, _, _, _, _, _, hs'⟩ :=
          verify_and_release_ok s pid hsub s' hok
        rw [hs']; rfl)]
      exact ih _


theorem states_of_rolesOnly (s s' : ContractState) (hro : RolesOnly s s')
    (pid : Nat) : s'.states pid = s.states pid := by rw [hro.2.1]

theorem step_status_local (s : ContractState) (hb : IdsBounded s) (op : Op)
    (pid : Nat) (st st' : ProjectState) (hst : s.states pid = some st)
    (hst' : (step s op).states pid = some st') :
    st.status = st'.status ∨ allowedTransition st.status st'.status = true := by
  have same_of : ∀ st'', s.states pid = some st'' → st'' = st := by
    intro st'' h2
    rw [hst] at h2
    exact (Option.some.injEq _ _ ▸ h2).symm ▸ rfl
  rcases step_eq s op with hsame | ⟨s', hok, hstep⟩
  · rw [hsame, hst] at hst'
    cases hst'
    exact Or.inl rfl
  · rw [hstep] at hst'
    cases op with
    | opInit a =>
      rw [states_of_rolesOnly s s' (init_super_admin_rolesOnly s a s' hok) pid,
        hst] at hst'
      cases hst'
      exact Or.inl rfl
    | opGrantRole ca t r =>
      rw [states_of_rolesOnly s s' (rbac_grant_role_rolesOnly s ca t r s' hok) pid,
        hst] at hst'
      cases hst'
      exact Or.inl rfl
    | opRevokeRole ca t =>
      rw [states_of_rolesOnly s s' (rbac_revoke_role_rolesOnly s ca t s' hok) pid,
        hst] at hst'
      cases hst'
      exact Or.inl rfl
    | opTransferSuperAdmin ca n =>
      rw [states_of_rolesOnly s s'
        (rbac_transfer_super_admin_rolesOnly s ca n s' hok) pid, hst] at hst'
      cases hst'
      exact Or.inl rfl
    | opSetOracle ca o =>
      rw [states_of_rolesOnly s s' (set_oracle_rolesOnly s ca o s' hok) pid,
        hst] at hst'
      cases hst'
      exact Or.inl rfl
    | opRegisterProject c tok g h d now =>
      cases hreg : register_project s c tok g h d now with
      | error e => rw [execOp, hreg] at hok; cases hok
      | ok pr =>
        rw [execOp, hreg] at hok
        cases hok
        obtain ⟨_, _, _, hp, hs'⟩ :=
          register_project_ok s c tok g h d now pr.1 pr.2 (by rw [hreg])
        have hpid : pid < countOf s := hb pid (Or.inr (by rw [hst]; rfl))
        have hid : pr.1.id = countOf s := by rw [hp]
        rw [hs'] at hst'
        simp only [save_project] at hst'
        rw [if_neg (by omega)] at hst'
        rw [hst] at hst'
        cases hst'
        exact Or.inl rfl
    | opDeposit pid0 don amt tOk =>
      obtain ⟨config, st0, hc0, hst0, _, _, _, hs'⟩ :=
        deposit_ok s pid0 don amt tOk s' hok
      rw [hs'] at hst'
      simp only [save_project_state] at hst'
      by_cases hip : pid = pid0
      · rw [if_pos hip] at hst'
        cases hst'
        subst hip
        have := same_of st0 hst0
        subst this
        exact Or.inl rfl
      · rw [if_neg hip] at hst'
        rw [hst] at hst'
        cases hst'
        exact Or.inl rfl
    | opVerifyAndRelease pid0 hsub =>
      obtain ⟨oracle, config, st0, _, _, _, hst0, hstat, _, hs'⟩ :=
        verify_and_release_ok s pid0 hsub s' hok
      rw [hs'] at hst'
      simp only [save_project_state] at hst'
      by_cases hip : pid = pid0
      · rw [if_pos hip] at hst'
        cases hst'
        subst hip
        have heq0 := same_of st0 hst0
        subst heq0
        rcases hstat with hf | ha
        · exact Or.inr (by rw [hf]; rfl)
        · exact Or.inr (by rw [ha]; rfl)
      · rw [if_neg hip] at hst'
        rw [hst] at hst'
        cases hst'
        exact Or.inl rfl


/-- Claim C1: on a registered Funding project with the matching proof hash,
`verify_and_release` is claimed to set the status to `Completed`, rewrite
only the mutable state, and transfer the held balance to the creator. The
code fails this: in every reachable state the call aborts with the untyped
panic `oracle not set` (the `OracleKey` read survives although the header
comment says it was replaced by the RBAC gate), and even on its success
path — exhibited here after force-writing `OracleKey` — it performs no
token transfer at all, contradicting its own doc comment (`release funds
to the creator`) and the repository test `test_funds_released_to_creator`. -/
theorem c1_verify_and_release_code_bug :
    Reachable c1S ∧
    c1S.states 0 = some ⟨40, ProjectStatus.Funding⟩ ∧
    c1S.configs 0 = some ⟨0, 2, 7, 100, demoHash, 10⟩ ∧
    c1S.roles 9 = some Role.Oracle ∧
    (verify_and_release c1S 0 demoHash).1
      = Except.error (Abort.panicMsg "oracle not set") ∧
    (verify_and_release c1Sora 0 demoHash).1
      = Except.ok (save_project_state c1Sora 0 ⟨40, ProjectStatus.Completed⟩) ∧
    (verify_and_release c1Sora 0 demoHash).2 = [Effect.verified 0] :=
  ⟨⟨c1Ops, rfl⟩, by decide, by decide, by decide, by rfl, by rfl, by decide⟩

/-- Claim C2: in every reachable state the `OracleKey` instance entry has
never been written (`set_oracle` only grants the Oracle role), so every
call of `verify_and_release` aborts with the untyped `oracle not set`
panic — for any project id, before reading any project data and with no
external effect. -/
theorem c2_oracle_never_set (s : ContractState) (hs : Reachable s)
    (pid : Nat) (h : List Nat) (s3 : ContractState) (caller oracle : Address) :
    s.oracleKey = none ∧
    (verify_and_release s pid h).1
      = Except.error (Abort.panicMsg "oracle not set") ∧
    (verify_and_release s pid h).2 = [] ∧
    (step s3 (Op.opSetOracle caller oracle)).oracleKey = s3.oracleKey := by
  have hg := reachable_good s hs
  refine ⟨hg.1, ?_, ?_, ?_⟩
  · unfold verify_and_release; rw [hg.1]
  · unfold verify_and_release; rw [hg.1]
  · rcases step_eq s3 (Op.opSetOracle caller oracle) with hsame | ⟨s', hok, hstep⟩
    · rw [hsame]
    · rw [hstep]
      exact (set_oracle_rolesOnly s3 caller oracle s' hok).2.2.2

theorem c2_witness :
    Reachable c1S ∧
    (c1S.oracleKey = none ∧
      (verify_and_release c1S 0 demoHash).1
        = Except.error (Abort.panicMsg "oracle not set") ∧
      (verify_and_release c1S 0 demoHash).2 = [] ∧
      (step startState (Op.opSetOracle 1 2)).oracleKey
        = startState.oracleKey) :=
  ⟨⟨c1Ops, rfl⟩, c2_oracle_never_set c1S ⟨c1Ops, rfl⟩ 0 demoHash startState 1 2⟩


/-- Claim C3, counterexample: the claim says a deposit to an unregistered
project fails with the typed error `ProjectNotFound`; on a fresh contract
the call in fact aborts with the untyped storage panic `project not
found`, which is not the typed error. -/
theorem c3_counterexample :
    (deposit startState 0 1 5 true).1
      = Except.error (Abort.panicMsg "project not found") ∧
    (deposit startState 0 1 5 true).1
      ≠ Except.error (Abort.typed ContractError.ProjectNotFound) ∧
    (deposit startState 0 1 5 true).2 = [] := by
  refine ⟨rfl, ?_, rfl⟩
  intro hco
  have h1 : (deposit startState 0 1 5 true).1
      = Except.error (Abort.panicMsg "project not found") := rfl
  rw [h1] at hco
  simp at hco

/-- Claim C3 (amended): a deposit to a project id with no stored config
aborts with the untyped panic `project not found` (the storage layer's
`expect`), no token transfer is attempted (the effect list is empty), and
no state is created or changed. -/
theorem c3_amended_not_found (s : ContractState) (pid : Nat) (don : Address)
    (a : Int) (tOk : Bool) (hnone : s.configs pid = none) :
    deposit s pid don a tOk
      = (Except.error (Abort.panicMsg "project not found"), []) ∧
    step s (Op.opDeposit pid don a tOk) = s := by
  have hd : deposit s pid don a tOk
      = (Except.error (Abort.panicMsg "project not found"), []) := by
    unfold deposit; rw [hnone]
  refine ⟨hd, ?_⟩
  simp [step, execOp, hd, orOld]

theorem c3_amended_witness :
    startState.configs 0 = none ∧
    (deposit startState 0 1 5 true
        = (Except.error (Abort.panicMsg "project not found"), []) ∧
      step startState (Op.opDeposit 0 1 5 true) = startState) :=
  ⟨rfl, c3_amended_not_found startState 0 1 5 true rfl⟩

/-- Claim C4: along every reachable step, a stored project status either
stays the same or follows one of the allowed forward transitions
(Funding→Active/Completed/Expired, Active→Completed/Expired); in
particular `Completed` and `Expired` have no outgoing transition in
`allowedTransition`. -/
theorem c4_status_forward_only (s : ContractState) (hs : Reachable s)
    (op : Op) (pid : Nat) (st st' : ProjectState)
    (hst : s.states pid = some st)
    (hst' : (step s op).states pid = some st') :
    st.status = st'.status ∨ allowedTransition st.status st'.status = true :=
  step_status_local s (reachable_good s hs).2 op pid st st' hst hst'

theorem c4_witness :
    Reachable c1S ∧
    c1S.states 0 = some ⟨40, ProjectStatus.Funding⟩ ∧
    (step c1S (Op.opDeposit 0 5 1 true)).states 0
      = some ⟨41, ProjectStatus.Funding⟩ ∧
    ((ProjectState.mk 40 ProjectStatus.Funding).status
        = (ProjectState.mk 41 ProjectStatus.Funding).status ∨
      allowedTransition (ProjectState.mk 40 ProjectStatus.Funding).status
        (ProjectState.mk 41 ProjectStatus.Funding).status = true) :=
  ⟨⟨c1Ops, rfl⟩, by decide, by decide,
    c4_status_forward_only c1S ⟨c1Ops, rfl⟩ (Op.opDeposit 0 5 1 true) 0
      ⟨40, ProjectStatus.Funding⟩ ⟨41, ProjectStatus.Funding⟩
      (by decide) (by decide)⟩


/-- Claim C5: over any trace from deployment, the ids returned by the
successful `register_project` calls are exactly `0, 1, …, N-1` in call
order with no gaps, and every successfully returned project has status
`Funding` and balance `0`, which is also what is stored for it. -/
theorem c5_sequential_ids (ops : List Op) (s : ContractState)
    (c tok : Address) (g : Int) (h : List Nat) (d now : Nat) (p : Project)
    (s' : ContractState)
    (hok : register_project s c tok g h d now = Except.ok (p, s')) :
    registeredIds startState ops
        = List.range (registeredIds startState ops).length ∧
    p.status = ProjectStatus.Funding ∧ p.balance = 0 ∧
    s'.states p.id = some ⟨0, ProjectStatus.Funding⟩ := by
  obtain ⟨_, _, _, hp, hs'⟩ := register_project_ok s c tok g h d now p s' hok
  refine ⟨?_, by rw [hp], by rw [hp], ?_⟩
  · have := registeredIds_range' ops startState
    rw [List.range_eq_range']
    simpa [countOf, startState] using this
  · rw [hs']
    simp [save_project, hp]

theorem c5_witness :
    registeredIds startState c1Ops
        = List.range (registeredIds startState c1Ops).length ∧
    c5Pair.1.status = ProjectStatus.Funding ∧ c5Pair.1.balance = 0 ∧
    c5Pair.2.states c5Pair.1.id = some ⟨0, ProjectStatus.Funding⟩ :=
  c5_sequential_ids c1Ops c1S 2 7 55 demoHash 99 0 c5Pair.1 c5Pair.2 rfl

/-- Claim C6: for an authorized creator, `register_project` fails with the
typed error `InvalidMilestones` exactly when `goal ≤ 0` or the deadline is
not strictly after the current ledger timestamp, and on such a failure the
state (counter and all project entries) is exactly as before. -/
theorem c6_invalid_milestones (s : ContractState) (c tok : Address) (g : Int)
    (h : List Nat) (d now : Nat) (hauth : canRegister s c = true) :
    (register_project s c tok g h d now
        = Except.error (Abort.typed ContractError.InvalidMilestones)
      ↔ (g ≤ 0 ∨ d ≤ now)) ∧
    ((g ≤ 0 ∨ d ≤ now) → step s (Op.opRegisterProject c tok g h d now) = s) := by
  have hlem : (g ≤ 0 ∨ d ≤ now) →
      register_project s c tok g h d now
        = Except.error (Abort.typed ContractError.InvalidMilestones) := by
    intro hcond
    unfold register_project require_can_register
    rw [if_pos hauth]
    by_cases hg : g ≤ 0
    · rw [if_pos hg]
    · rw [if_neg hg, if_pos (hcond.resolve_left hg)]
  constructor
  · constructor
    · intro herr
      by_contra hcon
      push_neg at hcon
      obtain ⟨hg, hd⟩ := hcon
      unfold register_project require_can_register
        get_and_increment_project_id at herr
      rw [if_pos hauth, if_neg (by omega), if_neg (by omega)] at herr
      by_cases hlt : countOf s + 1 < U64_LIMIT
      · rw [if_pos hlt] at herr; cases herr
      · rw [if_neg hlt] at herr
        simp at herr
    · exact hlem
  · intro hcond
    simp [step, execOp, hlem hcond, Except.map, orOld]

theorem c6_witness :
    canRegister c1S 2 = true ∧
    ((register_project c1S 2 7 0 demoHash 10 0
        = Except.error (Abort.typed ContractError.InvalidMilestones))
      ↔ ((0 : Int) ≤ 0 ∨ (10 : Nat) ≤ 0)) ∧
    (((0 : Int) ≤ 0 ∨ (10 : Nat) ≤ 0) →
      step c1S (Op.opRegisterProject 2 7 0 demoHash 10 0) = c1S) :=
  ⟨by decide, c6_invalid_milestones c1S 2 7 0 demoHash 10 0 (by decide)⟩

/-- Claim C7: any successful deposit of amount `a > 0` on a project whose
stored state is `st` leaves the stored state with balance exactly
`st.balance + a` (and the same status). -/
theorem c7_deposit_exact_balance (s : ContractState) (pid : Nat)
    (don : Address) (a : Int) (tOk : Bool) (st : ProjectState)
    (s' : ContractState) (hst : s.states pid = some st) (ha : 0 < a)
    (hok : (deposit s pid don a tOk).1 = Except.ok s') :
    s'.states pid = some ⟨st.balance + a, st.status⟩ := by
  obtain ⟨config, st0, hc0, hst0, _, _, _, hs'⟩ :=
    deposit_ok s pid don a tOk s' hok
  rw [hst] at hst0
  cases hst0
  rw [hs']
  simp [save_project_state]

theorem c7_witness :
    c1S.states 0 = some ⟨40, ProjectStatus.Funding⟩ ∧ (0 : Int) < 10 ∧
    (deposit c1S 0 5 10 true).1 = Except.ok c7S ∧
    c7S.states 0 = some ⟨40 + 10, ProjectStatus.Funding⟩ :=
  ⟨by decide, by decide, rfl,
    c7_deposit_exact_balance c1S 0 5 10 true ⟨40, ProjectStatus.Funding⟩ c7S
      (by decide) (by decide) rfl⟩


/-- Claim C8: in every reachable state, an existing project config entry
(id, creator, token, goal, proof hash, deadline) is left exactly as it is
by every operation; moreover `deposit` and `verify_and_release` leave
every config entry of any state unchanged, rewriting at most the mutable
state entry. -/
theorem c8_config_immutable (s : ContractState) (hs : Reachable s) (op : Op)
    (pid : Nat) (config : ProjectConfig) (hc : s.configs pid = some config)
    (s3 : ContractState) (pid3 : Nat) (don : Address) (amt : Int)
    (tOk : Bool) (hsub : List Nat) (i : Nat) :
    (step s op).configs pid = some config ∧
    (step s3 (Op.opDeposit pid3 don amt tOk)).configs i = s3.configs i ∧
    (step s3 (Op.opVerifyAndRelease pid3 hsub)).configs i = s3.configs i := by
  have hdep : ∀ (s4 : ContractState) (p4 : Nat) (d4 : Address) (a4 : Int)
      (t4 : Bool) (j : Nat),
      (step s4 (Op.opDeposit p4 d4 a4 t4)).configs j = s4.configs j := by
    intro s4 p4 d4 a4 t4 j
    rcases step_eq s4 (Op.opDeposit p4 d4 a4 t4) with hsame | ⟨s', hok, hstep⟩
    · rw [hsame]
    · rw [hstep]
      obtain ⟨_, _, _, _, _, _, _, hs'⟩ := deposit_ok s4 p4 d4 a4 t4 s' hok
      rw [hs']; rfl
  have hver : ∀ (s4 : ContractState) (p4 : Nat) (h4 : List Nat) (j : Nat),
      (step s4 (Op.opVerifyAndRelease p4 h4)).configs j = s4.configs j := by
    intro s4 p4 h4 j
    rcases step_eq s4 (Op.opVerifyAndRelease p4 h4) with hsame | ⟨s', hok, hstep⟩
    · rw [hsame]
    · rw [hstep]
      obtain ⟨_, _, _, _, _, _, _, _, _, hs'⟩ :=
        verify_and_release_ok s4 p4 h4 s' hok
      rw [hs']; rfl
  refine ⟨?_, hdep s3 pid3 don amt tOk i, hver s3 pid3 hsub i⟩
  have hg := reachable_good s hs
  have hpid : pid < countOf s := hg.2 pid (Or.inl (by rw [hc]; rfl))
  rcases step_eq s op with hsame | ⟨s', hok, hstep⟩
  · rw [hsame]; exact hc
  · rw [hstep]
    cases op with
    | opInit a =>
      rw [(init_super_admin_rolesOnly s a s' hok).1]; exact hc
    | opGrantRole ca t r =>
      rw [(rbac_grant_role_rolesOnly s ca t r s' hok).1]; exact hc
    | opRevokeRole ca t =>
      rw [(rbac_revoke_role_rolesOnly s ca t s' hok).1]; exact hc
    | opTransferSuperAdmin ca n =>
      rw [(rbac_transfer_super_admin_rolesOnly s ca n s' hok).1]; exact hc
    | opSetOracle ca o =>
      rw [(set_oracle_rolesOnly s ca o s' hok).1]; exact hc
    | opRegisterProject c2 tok g h d now =>
      cases hreg : register_project s c2 tok g h d now with
      | error e => rw [execOp, hreg] at hok; cases hok
      | ok pr =>
        rw [execOp, hreg] at hok
        cases hok
        obtain ⟨_, _, _, hp, hs'⟩ :=
          register_project_ok s c2 tok g h d now pr.1 pr.2 (by rw [hreg])
        have hid : pr.1.id = countOf s := by rw [hp]
        rw [hs']
        simp only [save_project]
        rw [if_neg (by omega)]
        exact hc
    | opDeposit p4 d4 a4 t4 =>
      rw [← hstep, hdep s p4 d4 a4 t4 pid]; exact hc
    | opVerifyAndRelease p4 h4 =>
      rw [← hstep, hver s p4 h4 pid]; exact hc

theorem c8_witness :
    Reachable c1S ∧ c1S.configs 0 = some ⟨0, 2, 7, 100, demoHash, 10⟩ ∧
    ((step c1S (Op.opDeposit 0 5 1 true)).configs 0
        = some ⟨0, 2, 7, 100, demoHash, 10⟩ ∧
      (step c1S (Op.opDeposit 0 5 1 true)).configs 0 = c1S.configs 0 ∧
      (step c1S (Op.opVerifyAndRelease 0 demoHash)).configs 0
        = c1S.configs 0) :=
  ⟨⟨c1Ops, rfl⟩, by decide,
    c8_config_immutable c1S ⟨c1Ops, rfl⟩ (Op.opDeposit 0 5 1 true) 0
      ⟨0, 2, 7, 100, demoHash, 10⟩ (by decide) c1S 0 5 1 true demoHash 0⟩


/-- Claim C9: `deposit` never inspects the project status — for any
registered project in any status whatsoever, when the external token
transfer succeeds (and the `i128` addition stays in range) the deposit
succeeds, the stored balance grows by exactly the deposited amount, and
the stored status is unchanged. -/
theorem c9_deposit_ignores_status (s : ContractState) (pid : Nat)
    (don : Address) (a : Int) (config : ProjectConfig) (st : ProjectState)
    (hc : s.configs pid = some config) (hst : s.states pid = some st)
    (hlo : I128_MIN ≤ st.balance + a) (hhi : st.balance + a ≤ I128_MAX) :
    (deposit s pid don a true).1
        = Except.ok (save_project_state s pid ⟨st.balance + a, st.status⟩) ∧
    (save_project_state s pid ⟨st.balance + a, st.status⟩).states pid
        = some ⟨st.balance + a, st.status⟩ := by
  constructor
  · unfold deposit
    simp only [hc, hst]
    rw [if_pos trivial, if_pos ⟨hlo, hhi⟩]
  · simp [save_project_state]


theorem c9_witness :
    c9S.configs 0 = some ⟨0, 2, 7, 100, demoHash, 10⟩ ∧
    c9S.states 0 = some ⟨5, ProjectStatus.Completed⟩ ∧
    I128_MIN ≤ (5 : Int) + 20 ∧ (5 : Int) + 20 ≤ I128_MAX ∧
    ((deposit c9S 0 4 20 true).1
        = Except.ok
            (save_project_state c9S 0 ⟨(5 : Int) + 20, ProjectStatus.Completed⟩) ∧
      (save_project_state c9S 0 ⟨(5 : Int) + 20, ProjectStatus.Completed⟩).states 0
        = some ⟨(5 : Int) + 20, ProjectStatus.Completed⟩) :=
  ⟨by decide, by decide, by decide, by decide,
    c9_deposit_ignores_status c9S 0 4 20 ⟨0, 2, 7, 100, demoHash, 10⟩
      ⟨5, ProjectStatus.Completed⟩ (by decide) (by decide) (by decide)
      (by decide)⟩

/-- Claim C10: `grant_role` by a caller holding no role, or only the
`ProjectManager` or `Oracle` role, fails with `NotAuthorized` and leaves
the state (hence all role assignments) unchanged; and any successful grant
of the `SuperAdmin` role was made by a caller already holding
`SuperAdmin`. -/
theorem c10_grant_role_auth (s : ContractState) (caller target : Address)
    (role : Role)
    (hcaller : s.roles caller = none ∨
      s.roles caller = some Role.ProjectManager ∨
      s.roles caller = some Role.Oracle)
    (s2 : ContractState) (c2 t2 : Address) (s2' : ContractState)
    (hgrant : grant_role s2 c2 t2 Role.SuperAdmin = Except.ok s2') :
    grant_role s caller target role
        = Except.error (Abort.typed ContractError.NotAuthorized) ∧
    step s (Op.opGrantRole caller target role) = s ∧
    s2.roles c2 = some Role.SuperAdmin := by
  have hnsa : s.roles caller ≠ some Role.SuperAdmin := by
    rcases hcaller with h | h | h <;> simp [h]
  have hna : s.roles caller ≠ some Role.Admin := by
    rcases hcaller with h | h | h <;> simp [h]
  have herr : grant_role s caller target role
      = Except.error (Abort.typed ContractError.NotAuthorized) := by
    unfold grant_role rbac_grant_role isAdminOrAbove
    by_cases hr : (role == Role.SuperAdmin) = true
    · rw [if_pos hr, if_neg (by simpa using hnsa)]
    · rw [if_neg hr, if_neg (by simp [hnsa, hna])]
  refine ⟨herr, by simp [step, execOp, herr, orOld], ?_⟩
  unfold grant_role rbac_grant_role at hgrant
  rw [if_pos (by rfl)] at hgrant
  by_cases hsa : (s2.roles c2 == some Role.SuperAdmin) = true
  · simpa using hsa
  · rw [if_neg hsa] at hgrant; cases hgrant

theorem c10_witness :
    (startState.roles 1 = none ∨
      startState.roles 1 = some Role.ProjectManager ∨
      startState.roles 1 = some Role.Oracle) ∧
    grant_role c1S 1 3 Role.SuperAdmin = Except.ok c10S ∧
    (grant_role startState 1 2 Role.Admin
        = Except.error (Abort.typed ContractError.NotAuthorized) ∧
      step startState (Op.opGrantRole 1 2 Role.Admin) = startState ∧
      c1S.roles 1 = some Role.SuperAdmin) :=
  ⟨Or.inl rfl, rfl,
    c10_grant_role_auth startState 1 2 Role.Admin (Or.inl rfl) c1S 1 3 c10S
      rfl⟩

end PIFP
